import Mathlib

/-!
Verification development for the PhalconTraceParser repository.

The JavaScript sources are shallowly embedded as Lean definitions:
pure functions become Lean functions, stateful helpers pass their state
explicitly, code that may raise a JavaScript exception returns
`Except String`, and the external capabilities (ethers interface
construction and ABI decoding, the 4byte / Etherface signature
registries, file-loaded ABIs) are parameters of the embedding, so the
theorems quantify over their behaviour.

Section guide:
* JS string primitives (ASCII case mapping, substring and truthiness
  semantics of the JavaScript code);
* keccak-256, executable, used by `toChecksumAddress`
  (`src/lib/traceParser.js`);
* `detectCallbackType` (`src/lib/traceParser.js` lines 48-85);
* the ABI manager (`src/lib/abiManager.js`): signature lookup with
  fallback and cache, `decodeFunctionCall`, `generateInterfaceName`;
* the address registry (`_registerAddress`);
* the trace walker (`_processTraceData`, `_findCallbackRanges`,
  `extractCallsInFlashloanRange`, `extractCallbackData`);
* the renderer model for `_generateInterfaces` and
  `_generateMainTestFunction`.
-/

/-! ### JavaScript string primitives -/

/-- ASCII lower-casing of a character, the action of JavaScript
`toLowerCase()` on the ASCII range (all addresses and method names the
parser handles are ASCII). -/
def jsToLowerChar (c : Char) : Char :=
  if 65 ≤ c.toNat ∧ c.toNat ≤ 90 then Char.ofNat (c.toNat + 32) else c

/-- ASCII upper-casing of a character, the action of JavaScript
`toUpperCase()` on the ASCII range. -/
def jsToUpperChar (c : Char) : Char :=
  if 97 ≤ c.toNat ∧ c.toNat ≤ 122 then Char.ofNat (c.toNat - 32) else c

/-- JavaScript `s.toLowerCase()`. -/
def strToLower (s : String) : String := String.mk (s.data.map jsToLowerChar)

/-- Whether the first list is an initial segment of the second. -/
def startsWithList : List Char → List Char → Bool
  | [], _ => true
  | p :: ps, rest =>
    match rest with
    | c :: cs => p == c && startsWithList ps cs
    | [] => false

/-- Whether `sub` occurs contiguously inside `s`. -/
def containsList : List Char → List Char → Bool
  | [], sub => startsWithList sub []
  | c :: cs, sub => startsWithList sub (c :: cs) || containsList cs sub

/-- JavaScript `s.includes(sub)`. -/
def jsIncludes (s sub : String) : Bool := containsList s.data sub.data

/-- JavaScript `s.startsWith(pre)`. -/
def jsStartsWith (s pre : String) : Bool := startsWithList pre.data s.data

/-- JavaScript `a || b` on two optional strings, with the empty string
falsy, as the trace walker uses it on possibly-absent fields. -/
def jsOrStr (a b : Option String) : Option String :=
  match a with
  | some s => if s = "" then b else some s
  | none => b

/-- JavaScript truthiness of a possibly-absent string. -/
def strTruthy : Option String → Bool
  | some s => s ≠ ""
  | none => false

/-! ### keccak-256, executable

`toChecksumAddress` calls `ethers.keccak256(ethers.toUtf8Bytes(addr))`;
the hash is embedded in full so that concrete checksum outputs can be
evaluated inside Lean.  Lanes are `Nat` values kept below `2 ^ 64`;
byte strings are lists of `Nat` below `256`. -/

/-- Rotate a 64-bit lane left by `n` bits. -/
def rotLane (x n : Nat) : Nat :=
  ((x <<< n) ||| (x >>> (64 - n))) % (2 ^ 64)

/-- Indexing into a lane list, `0` past the end. -/
def lget (l : List Nat) (i : Nat) : Nat := l.getD i 0

/-- One step of the degree-8 LFSR generating the Keccak round-constant
bit sequence (polynomial x^8 + x^6 + x^5 + x^4 + 1). -/
def rcStep (R : Nat) : Nat :=
  let R2 := R * 2
  if 256 ≤ R2 then (R2 ^^^ 0x71) % 256 else R2

/-- The LFSR register after `t` steps from the initial value 1; its
low bit is the round-constant bit rc(t). -/
def rcReg : Nat → Nat
  | 0 => 1
  | t + 1 => rcStep (rcReg t)

/-- The ι round constant of round `ir`: bit rc(7 ir + j) lands at lane
position 2^j - 1. -/
def roundConstant (ir : Nat) : Nat :=
  (List.range 7).foldl (fun acc j => acc + rcReg (j + 7 * ir) % 2 * 2 ^ (2 ^ j - 1)) 0

/-- The 24 Keccak round constants. -/
def keccakRC : List Nat := (List.range 24).map roundConstant

/-- Lane index for coordinates `(x, y)`. -/
def laneIdx (x y : Nat) : Nat := x % 5 + 5 * (y % 5)

/-- The coordinate walk assigning the ρ rotation offsets: starting
from (1, 0), step `t` gives the current lane the offset
(t+1)(t+2)/2 mod 64 and moves to (y, 2x+3y mod 5); the accumulator
pairs each visited lane index with its offset, seeded with lane (0,0)
at offset 0. -/
def rhoWalk : Nat → (Nat × Nat) × List (Nat × Nat)
  | 0 => ((1, 0), [(laneIdx 0 0, 0)])
  | t + 1 =>
    let w := rhoWalk t
    let x := w.1.1
    let y := w.1.2
    ((y, (2 * x + 3 * y) % 5), (laneIdx x y, (t + 1) * (t + 2) / 2 % 64) :: w.2)

/-- The ρ rotation offsets, indexed by lane (`x + 5 * y`). -/
def keccakRot : List Nat := (List.range 25).map (fun i => ((rhoWalk 24).2.lookup i).getD 0)

/-- Keccak θ step. -/
def keccakTheta (A : List Nat) : List Nat :=
  let C := (List.range 5).map (fun x =>
    (((lget A (laneIdx x 0)).xor (lget A (laneIdx x 1))).xor
      ((lget A (laneIdx x 2)).xor (lget A (laneIdx x 3)))).xor (lget A (laneIdx x 4)))
  let D := (List.range 5).map (fun x =>
    (lget C ((x + 4) % 5)).xor (rotLane (lget C ((x + 1) % 5)) 1))
  (List.range 25).map (fun i => (lget A i).xor (lget D (i % 5)))

/-- Keccak ρ and π steps: the output lane at `(X, Y)` is the rotated
input lane at `(X + 3 Y, X)`. -/
def keccakRhoPi (A : List Nat) : List Nat :=
  (List.range 25).map (fun i =>
    let x := (i % 5 + 3 * (i / 5)) % 5
    let y := i % 5
    rotLane (lget A (laneIdx x y)) (lget keccakRot (laneIdx x y)))

/-- Keccak χ step. -/
def keccakChi (B : List Nat) : List Nat :=
  (List.range 25).map (fun i =>
    let X := i % 5
    let Y := i / 5
    (lget B i).xor
      (Nat.land ((lget B (laneIdx (X + 1) Y)).xor (2 ^ 64 - 1)) (lget B (laneIdx (X + 2) Y))))

/-- One Keccak round: θ, ρ, π, χ, then ι with the round constant. -/
def keccakRound (A : List Nat) (rc : Nat) : List Nat :=
  let B := keccakChi (keccakRhoPi (keccakTheta A))
  (lget B 0).xor rc :: B.drop 1

/-- The keccak-f[1600] permutation, 24 rounds. -/
def keccakF (A : List Nat) : List Nat := keccakRC.foldl keccakRound A

/-- Little-endian interpretation of up to eight bytes as one lane. -/
def bytesToLane (bs : List Nat) : Nat := bs.foldr (fun b acc => acc * 256 + b) 0

/-- Split `n` lanes of eight bytes off a byte list. -/
def chunkLanesN : Nat → List Nat → List Nat
  | 0, _ => []
  | n + 1, bs => bytesToLane (bs.take 8) :: chunkLanesN n (bs.drop 8)

/-- Original Keccak padding (`0x01 … 0x80`) to a multiple of the
136-byte rate. -/
def padKeccak (msg : List Nat) : List Nat :=
  let padLen := 136 - msg.length % 136
  let pad : List Nat :=
    if padLen = 1 then [0x81]
    else 0x01 :: (List.replicate (padLen - 2) 0 ++ [0x80])
  msg ++ pad

/-- Absorb one 136-byte block into the sponge state. -/
def absorbBlock (st : List Nat) (block : List Nat) : List Nat :=
  let lanes := chunkLanesN 17 block
  keccakF ((List.range 25).map (fun i => (lget st i).xor (lget lanes i)))

/-- Split a padded message into 136-byte blocks; the fuel argument is
the block count, making the recursion structural. -/
def splitBlocksN : Nat → List Nat → List (List Nat)
  | 0, _ => []
  | n + 1, bs => if bs.isEmpty then [] else bs.take 136 :: splitBlocksN n (bs.drop 136)

/-- keccak-256 of a byte string, as 32 bytes. -/
def keccak256 (msg : List Nat) : List Nat :=
  let padded := padKeccak msg
  let st := (splitBlocksN (padded.length / 136) padded).foldl absorbBlock (List.replicate 25 0)
  ((List.range 4).map (fun i => (List.range 8).map (fun j => lget st i / 256 ^ j % 256))).flatten

/-- Lower-case hex digit for a value below 16. -/
def hexChar (n : Nat) : Char := if n < 10 then Char.ofNat (48 + n) else Char.ofNat (87 + n)

/-- keccak-256 of a byte string as 64 lower-case hex characters, the
digest part of what `ethers.keccak256` returns. -/
def keccak256Hex (msg : List Nat) : List Char :=
  (keccak256 msg).flatMap (fun b => [hexChar (b / 16), hexChar (b % 16)])

/-! ### toChecksumAddress (src/lib/traceParser.js lines 432-450) -/

/-- JavaScript `parseInt(c, 16)` on a hex digit character. -/
def hexVal (c : Char) : Nat := if c.toNat ≤ 57 then c.toNat - 48 else c.toNat - 87

/-- The per-character loop of `toChecksumAddress`: upper-case the i-th
address character when the i-th hash digit is at least 8. -/
def checksumMask : List Char → List Char → List Char
  | [], _ => []
  | c :: cs, hash =>
    (if 8 ≤ hexVal (hash.headD '0') then jsToUpperChar c else c) :: checksumMask cs hash.tail

/-- `toChecksumAddress(address)` from src/lib/traceParser.js: strings
failing the `0x`-prefix / length-42 guard are returned unchanged
(this also covers the falsy `!address` check, since the empty string
fails the prefix test); otherwise the lower-cased bare address is
hashed with keccak-256 of its UTF-8 bytes and each character is
upper-cased when the matching hash digit is at least 8. -/
def toChecksumAddress (address : String) : String :=
  if !(jsStartsWith address "0x") || address.length != 42 then address
  else
    let addr : List Char := (strToLower address).data.drop 2
    let hash : List Char := keccak256Hex (addr.map Char.toNat)
    String.mk ('0' :: 'x' :: checksumMask addr hash)

/-! ### detectCallbackType (src/lib/traceParser.js lines 48-85)

The method name is lower-cased once and then tested with plain
case-sensitive `includes` against the literals exactly as they appear
in the source, several of which contain upper-case letters. -/

/-- `detectCallbackType(methodName, contractAddress, callData)` from
src/lib/traceParser.js.  The second and third arguments are unused by
the source body and kept for signature fidelity. -/
def detectCallbackType (methodName contractAddress callData : String) : String :=
  let method := strToLower methodName
  if jsIncludes method "flashloan" || jsIncludes method "executeOperation" then
    "aave_flashloan"
  else if jsIncludes method "receiveFlashLoan" then
    "balancer_flashloan"
  else if jsIncludes method "callFunction" then
    "dydx_flashloan"
  else if jsIncludes method "onMorphoFlashLoan" || jsIncludes method "morpho" then
    "morpho_blue_callback"
  else if jsIncludes method "uniswapV3SwapCallback" then
    "uniswap_v3_swap"
  else if jsIncludes method "uniswapV3FlashCallback" then
    "uniswap_v3_flash"
  else if jsIncludes method "callback" && (jsIncludes method "flash" || jsIncludes method "loan") then
    "generic_flashloan"
  else
    "unknown_callback"

/-! ### Address registry (_registerAddress, src/lib/traceParser.js
lines 525-538 and src/unnamed/part_001 lines 568-581 — the two copies
are textually identical) -/

/-- The mutable state touched by `_registerAddress`: the
`addressRegistry` map from lower-cased address to variable name and
the `addressCounter` map, which the source only ever uses at key
`"total"`.  Both JavaScript `Map`s are modelled as association lists
whose most recent binding shadows older ones. -/
structure RegState where
  registry : List (String × String)
  counter : List (String × Nat)
deriving Repr, DecidableEq

/-- `_registerAddress(address, addressRegistry, addressCounter)`: if the
lower-cased address is absent, increment the `"total"` counter, bind
the address to `addr<counter>` and return that name; otherwise return
the existing binding unchanged. -/
def registerAddress (address : String) (st : RegState) : String × RegState :=
  let lowerAddr := strToLower address
  match st.registry.lookup lowerAddr with
  | some v => (v, st)
  | none =>
    let counter := (st.counter.lookup "total").getD 0 + 1
    let varName := "addr" ++ toString counter
    (varName,
      { registry := (lowerAddr, varName) :: st.registry,
        counter := ("total", counter) :: st.counter })

/-! ### ABI manager (src/lib/abiManager.js)

External capabilities — the two signature registries, the ethers
interface construction / ABI decoding, the file-loaded known-contract
ABIs — are modelled as functions supplied through an environment;
capabilities that can raise a JavaScript exception return
`Except String`.  The signature cache (`this.signatureCache`) is an
association list threaded through explicitly; each call also reports
the list of external registries it actually queried. -/

/-- A registry lookup result, the shape returned by
`fourByteApi.lookupFunctionSignature` and consumed by the ABI
manager. -/
structure ApiResult where
  functionName : String
  textSignature : String
  parameters : List String
deriving Repr, DecidableEq

/-- One named, typed input of an ABI function entry. -/
structure AbiInput where
  name : String
  type : String
deriving Repr, DecidableEq

/-- One entry of a contract ABI. -/
structure AbiItem where
  type : String
  name : String
  inputs : List AbiInput
deriving Repr, DecidableEq

/-- External capabilities of the ABI manager.  `fourByteApi` and
`etherfaceApi` may be absent, mirroring the nullable constructor
arguments; `ifaceSelector` models
`new ethers.Interface([func]).getFunction(func.name).selector` and
`ifaceDecode` models `funcInterface.decodeFunctionData`, both able to
throw; `abiDecodeParams` models
`ethers.AbiCoder.defaultAbiCoder().decode(types, data)` returning the
decoded values in string form. -/
structure AbiEnv where
  fourByteApi : Option (String → Except String (Option ApiResult))
  etherfaceApi : Option (String → Except String (Option ApiResult))
  ifaceSelector : AbiItem → Except String String
  ifaceDecode : AbiItem → String → Except String (List String)
  loadContractABI : String → Option (List AbiItem)
  abiDecodeParams : List String → String → Except String (List String)

/-- The signature cache: selector to cached result, a stored `none`
recording a failed lookup. -/
abbrev SigCache := List (String × Option ApiResult)

/-- JavaScript `try { body } catch (e) { handler }` over the exception
monad of the embedding. -/
def jsCatch (body : Except String α) (handler : String → Except String α) : Except String α :=
  match body with
  | Except.ok a => Except.ok a
  | Except.error e => handler e

/-- The cache-miss body of `lookupFunctionSignatureWithFallback`:
query 4byte when present, then — only when that threw or returned
nothing — Etherface, catching either registry's exception as a miss;
the second component lists the external registries queried. -/
def queryRegistries (env : AbiEnv) (selector : String) : Option ApiResult × List String :=
  let step1 : Option ApiResult × List String :=
    match env.fourByteApi with
    | some f =>
      (match f selector with
       | Except.ok (some x) => (some x, ["4byte"])
       | Except.ok none => (none, ["4byte"])
       | Except.error _ => (none, ["4byte"]))
    | none => (none, [])
  let step2 : Option ApiResult × List String :=
    if step1.1.isNone then
      match env.etherfaceApi with
      | some g =>
        (match g selector with
         | Except.ok (some x) => (some x, ["etherface"])
         | Except.ok none => (none, ["etherface"])
         | Except.error _ => (none, ["etherface"]))
      | none => (none, [])
    else (none, [])
  let result := match step1.1 with
    | some x => some x
    | none => step2.1
  (result, step1.2 ++ step2.2)

/-- `lookupFunctionSignatureWithFallback(selector)` from
src/lib/abiManager.js lines 83-120: answer from the cache when
present (even a cached `null`); otherwise run the registry queries and
cache whatever resulted.  The third component lists the external
registries queried during the call. -/
def lookupFunctionSignatureWithFallback (env : AbiEnv) (cache : SigCache) (selector : String) :
    Option ApiResult × SigCache × List String :=
  match cache.lookup selector with
  | some r => (r, cache, [])
  | none =>
    let q := queryRegistries env selector
    (q.1, (selector, q.1) :: cache, q.2)

/-- A concrete environment for witnesses: 4byte knows the ERC-20
`transfer` selector, Etherface is absent, and the ethers capabilities
reject everything (they are not consulted on these paths). -/
def envTransfer : AbiEnv :=
  { fourByteApi := some (fun sel =>
      if sel = "0xa9059cbb" then
        Except.ok (some { functionName := "transfer",
                          textSignature := "transfer(address,uint256)",
                          parameters := ["address", "uint256"] })
      else Except.ok none),
    etherfaceApi := none,
    ifaceSelector := fun _ => Except.error "not consulted",
    ifaceDecode := fun _ _ => Except.error "not consulted",
    loadContractABI := fun _ => none,
    abiDecodeParams := fun _ _ => Except.error "not consulted" }

/-! ### decodeFunctionCall (src/lib/abiManager.js lines 129-179) -/

/-- The decoded-call object `decodeFunctionCall` returns.  The local
ABI tier carries `decodedData` and no `selector` field; the registry
tier carries `selector` and no `decodedData`, exactly as the two
object literals in the source. -/
structure DecodedCall where
  name : String
  signature : String
  inputs : List AbiInput
  decodedData : Option (List String)
  selector : Option String
deriving Repr, DecidableEq

/-- JavaScript `list.join(",")`. -/
def joinComma : List String → String
  | [] => ""
  | [x] => x
  | x :: y :: xs => x ++ "," ++ joinComma (y :: xs)

/-- JavaScript `s.slice(0, n)`. -/
def strSliceTo (s : String) (n : Nat) : String := String.mk (s.data.take n)

/-- The local-ABI loop of `decodeFunctionCall`: for each function
entry, build its ethers interface and compare its selector with the
payload's, decoding on a match; any exception in an iteration —
interface construction, selector computation or data decoding — is
caught and the loop moves to the next entry. -/
def tryLocalAbi (env : AbiEnv) (selector callData : String) :
    List AbiItem → Except String (Option DecodedCall)
  | [] => Except.ok none
  | func :: rest =>
    match jsCatch
        (match env.ifaceSelector func with
         | Except.error e => Except.error e
         | Except.ok funcSelector =>
           if funcSelector = selector then
             match env.ifaceDecode func callData with
             | Except.error e => Except.error e
             | Except.ok decoded =>
               Except.ok (some
                 { name := func.name,
                   signature :=
                     func.name ++ "(" ++ joinComma (func.inputs.map (fun i => i.type)) ++ ")",
                   inputs := func.inputs,
                   decodedData := some decoded,
                   selector := none })
           else Except.ok none)
        (fun _ => Except.ok none) with
    | Except.ok (some d) => Except.ok (some d)
    | Except.ok none => tryLocalAbi env selector callData rest
    | Except.error e => Except.error e

/-- The registry tier of `decodeFunctionCall`: delegate the selector
to `lookupFunctionSignatureWithFallback`; a hit becomes a decoded call
with positionally named inputs carrying the raw selector, a miss
becomes `null`; either way the possibly extended cache is returned. -/
def registryDecodeStep (env : AbiEnv) (cache : SigCache) (selector : String) :
    Except String (Option DecodedCall × SigCache) :=
  match lookupFunctionSignatureWithFallback env cache selector with
  | (some a, cache1, _) =>
    Except.ok (some
      { name := a.functionName,
        signature := a.textSignature,
        inputs := a.parameters.enum.map
          (fun p => { name := "param" ++ toString p.1, type := p.2 }),
        decodedData := none,
        selector := some selector }, cache1)
  | (none, cache1, _) => Except.ok (none, cache1)

/-- `decodeFunctionCall(address, callData, abi)` from
src/lib/abiManager.js lines 129-179.  Payloads shorter than ten
characters (the `0x` prefix plus a full four-byte selector) yield
`null` at once — this also covers the falsy `!callData` test, since
the empty string is shorter than ten characters.  Otherwise the local
ABI is scanned first, then the signature registries; a registry hit
yields a decoded call carrying the resolved signature with
positionally named inputs and the raw selector.  The cache threads
through and comes back possibly extended. -/
def decodeFunctionCall (env : AbiEnv) (cache : SigCache) (address callData : String)
    (abi : Option (List AbiItem)) : Except String (Option DecodedCall × SigCache) :=
  if callData.length < 10 then Except.ok (none, cache)
  else
    let selector := strSliceTo callData 10
    match
      (match abi with
       | some items =>
         tryLocalAbi env selector callData (items.filter (fun i => i.type = "function"))
       | none => Except.ok none) with
    | Except.error e => Except.error e
    | Except.ok (some d) => Except.ok (some d, cache)
    | Except.ok none => registryDecodeStep env cache selector

/-! ### generateInterfaceName (src/lib/abiManager.js lines 187-246)
and _generateInterfaces (src/unnamed/part_001 lines 343-373) -/

/-- JavaScript `sig.split("(")[0]`: the text before the first opening
parenthesis. -/
def beforeParen (s : String) : String := String.mk (s.data.takeWhile (fun c => c ≠ '('))

/-- JavaScript `address.slice(-n)`: the last `n` characters. -/
def sliceLast (s : String) (n : Nat) : String := String.mk (s.data.drop (s.data.length - n))

/-- JavaScript `s.charAt(0).toUpperCase() + s.slice(1)`. -/
def capitalize (s : String) : String :=
  match s.data with
  | [] => ""
  | c :: cs => String.mk (jsToUpperChar c :: cs)

/-- The fixed `namePatterns` table of `generateInterfaceName`, in
declaration order. -/
def namePatterns : List (String × List String) :=
  [("vault", ["deposit", "withdraw", "totalAssets", "totalSupply"]),
   ("pool", ["swap", "mint", "burn", "getReserves"]),
   ("router", ["swapExactTokensForTokens", "addLiquidity", "removeLiquidity"]),
   ("factory", ["createPair", "getPair", "allPairs"]),
   ("token", ["transfer", "approve", "balanceOf", "totalSupply"]),
   ("lending", ["borrow", "repay", "liquidate", "collateral"]),
   ("governance", ["propose", "vote", "execute", "delegate"]),
   ("nft", ["mint", "tokenURI", "ownerOf", "setApprovalForAll"])]

/-- Keyword-overlap score of one pattern row: the number of its
keywords that occur, case-insensitively, inside some extracted
function name. -/
def patternScore (functionNames : List String) (keywords : List String) : Nat :=
  (keywords.filter (fun kw =>
    functionNames.any (fun func => jsIncludes (strToLower func) (strToLower kw)))).length

/-- The best-match fold of `generateInterfaceName`: strict improvement
only, so on ties the earlier row of the table wins. -/
def bestPattern (functionNames : List String) : String × Nat :=
  namePatterns.foldl
    (fun best p =>
      let score := patternScore functionNames p.2
      if best.2 < score then (p.1, score) else best)
    ("", 0)

/-- `generateInterfaceName(address, signatures)` from
src/lib/abiManager.js lines 187-246. -/
def generateInterfaceName (address : String) (signatures : List String) : String :=
  if signatures.isEmpty then "IContract" ++ sliceLast address 6
  else
    let functionNames := ((signatures.map beforeParen).filter
      (fun name => name ≠ "" ∧ name ≠ "unknown")).take 5
    if functionNames.isEmpty then "IContract" ++ sliceLast address 6
    else
      let best := bestPattern functionNames
      if best.1 ≠ "" ∧ 2 ≤ best.2 then "I" ++ capitalize best.1
      else "I" ++ capitalize (functionNames.headD "") ++ "Contract"

/-- The emission loop of `_generateInterfaces` from
src/unnamed/part_001 lines 343-373, carrying the
`processedInterfaces` set: an address whose derived interface name was
already emitted is skipped entirely.  Each returned pair stands for
one rendered `interface` declaration with exactly those signatures;
the per-signature `fixInterfaceSignature` reformatting inside the
declaration body is presentation-only and not modelled. -/
def generateInterfacesGo (processed : List String) :
    List (String × List String) → List (String × List String)
  | [] => []
  | (address, signatures) :: rest =>
    let interfaceName := generateInterfaceName address signatures
    if interfaceName ∈ processed then generateInterfacesGo processed rest
    else (interfaceName, signatures) :: generateInterfacesGo (interfaceName :: processed) rest

/-- `_generateInterfaces(contracts, tokenInfoMap)`: the contracts map
in iteration order, deduplicated by derived interface name,
first-wins. -/
def generateInterfaces (contracts : List (String × List String)) : List (String × List String) :=
  generateInterfacesGo [] contracts

/-! ### Trace data model

Trace nodes as the walker reads them: a node map entry may carry the
plural `invocations` list or the singular `invocation` object; an
invocation may name its source as `from` or `fromAddress` and its
target as `to` or `address`; a `decodedMethod` may be pre-populated.
Parameter values are carried as strings — the JavaScript also carries
decoded objects, whose pretty-printing is presentation-only. -/

/-- One parameter of a decoded method. -/
structure Param where
  type : String
  name : String
  value : String
deriving Repr, DecidableEq

/-- A pre-populated `decodedMethod` on a trace invocation. -/
structure DecodedMethod where
  name : String
  signature : Option String
  callParams : Option (List Param)
deriving Repr, DecidableEq

/-- One invocation of a trace node.  The JavaScript `from` and `to`
fields are spelled `fromAddr` and `toAddr` (both are reserved words in
Lean). -/
structure Invocation where
  fromAddr : Option String
  fromAddress : Option String
  toAddr : Option String
  address : Option String
  selector : Option String
  callData : Option String
  value : Option String
  gasUsed : Option String
  decodedMethod : Option DecodedMethod
deriving Repr, DecidableEq

/-- One entry of the trace node map. -/
structure TraceEntry where
  invocations : Option (List Invocation)
  invocation : Option Invocation
deriving Repr, DecidableEq

/-- The node map in ascending ordering-key order, as
`Object.entries(dataMap)` enumerates integer-like keys. -/
abbrev DataMap := List (Nat × TraceEntry)

/-- The normalization `entry.invocations || (entry.invocation ?
[entry.invocation] : [])` both walkers apply (an empty plural list is
a truthy JavaScript array and is kept). -/
def entryInvocations (e : TraceEntry) : List Invocation :=
  match e.invocations with
  | some l => l
  | none =>
    match e.invocation with
    | some inv => [inv]
    | none => []

/-- The main-actor test: `from || fromAddress`, truthy, and equal to
the main address up to case. -/
def isFromMain (inv : Invocation) (mainAddress : String) : Bool :=
  let fromAddr := jsOrStr inv.fromAddr inv.fromAddress
  strTruthy fromAddr && (strToLower (fromAddr.getD "") == strToLower mainAddress)

/-! ### The walker state and _processInvocation
(src/unnamed/part_001 lines 85-220) -/

/-- One element of the `methodCalls` array `_processInvocation`
builds; `signature` and `params` are `null` exactly on the raw-call
path, where `rawCalldata` carries the verbatim payload instead. -/
structure MethodCall where
  toAddr : Option String
  addressVar : String
  methodName : String
  signature : Option String
  params : Option (List Param)
  value : String
  gasUsed : String
  rawCalldata : Option String
deriving Repr, DecidableEq

/-- The mutable collections `generateFoundryTest` threads through the
walk: the contracts map (address to signature set, insertion
ordered), the accumulated method calls, the address registry with its
counter, and the ABI manager's signature cache. -/
structure WalkState where
  contracts : List (String × List String)
  methodCalls : List MethodCall
  reg : RegState
  cache : SigCache
deriving Repr, DecidableEq

/-- `_updateContractInterface(address, signature, contracts)`: create
the signature set on first sight of the address, then add the
signature (sets keep insertion order, ignoring duplicates). -/
def updateContractInterface (address : String) (signature : String) :
    List (String × List String) → List (String × List String)
  | [] => [(address, [signature])]
  | (k, sigs) :: rest =>
    if k = address then
      (k, if signature ∈ sigs then sigs else sigs ++ [signature]) :: rest
    else (k, sigs) :: updateContractInterface address signature rest

/-- `_convertAbiInputsToParams(decodedCall)` from src/unnamed/part_001
lines 183-192. -/
def convertAbiInputsToParams (d : DecodedCall) : List Param :=
  match d.decodedData with
  | some vals =>
    d.inputs.enum.map (fun p =>
      { type := p.2.type,
        name := if p.2.name ≠ "" then p.2.name else "param" ++ toString p.1,
        value := let v := vals.getD p.1 ""
                 if v = "" then "unknown" else v })
  | none => []

/-- `_decodeParametersFromCallData(callData, apiResult)` from
src/unnamed/part_001 lines 201-220: nothing to decode for payloads of
at most ten characters; a decoder exception degrades to one opaque
`bytes` parameter holding the payload. -/
def decodeParametersFromCallData (env : AbiEnv) (callData : Option String)
    (apiResult : ApiResult) : List Param :=
  match callData with
  | none => []
  | some cd =>
    if cd.length ≤ 10 then []
    else
      match env.abiDecodeParams apiResult.parameters ("0x" ++ String.mk (cd.data.drop 10)) with
      | Except.ok vals =>
        apiResult.parameters.enum.map (fun p =>
          { type := p.2, name := "param" ++ toString p.1,
            value := let v := vals.getD p.1 ""
                     if v = "" then "unknown" else v })
      | Except.error _ => [{ type := "bytes", name := "", value := cd }]

/-- The final branch of the `_processInvocation` cascade: calldata
with no selector is replayed raw as `unknownCall`; otherwise the
`unknown` defaults stand. -/
def processNoSelectorPhase (inv : Invocation) (cache : SigCache) :
    String × String × List Param × Bool × SigCache :=
  if strTruthy inv.callData ∧ inv.callData ≠ some "0x" then
    ("unknownCall", "unknown()", [], true, cache)
  else ("unknown", "unknown()", [], false, cache)

/-- The decode cascade of `_processInvocation` when no usable
`decodedMethod` is present: local ABI (only for a known contract with
a non-`0x` payload), then the registry lookup, then the raw-call
fallback naming the selector.  Returns method name, signature,
parameters, the raw-call flag and the threaded cache.  The
`Except.error` arm of the embedded decoder call is unreachable, since
the decoder catches every internal failure. -/
def processSelectorPhase (env : AbiEnv) (inv : Invocation) (target : String)
    (cache : SigCache) : String × String × List Param × Bool × SigCache :=
  match inv.selector with
  | some sel =>
    if sel ≠ "" then
      let abi := env.loadContractABI target
      let decoded :=
        if abi.isSome ∧ strTruthy inv.callData ∧ inv.callData ≠ some "0x" then
          match decodeFunctionCall env cache target (inv.callData.getD "") abi with
          | Except.ok (r, c) => (r, c)
          | Except.error _ => (none, cache)
        else (none, cache)
      match decoded.1 with
      | some d => (d.name, d.signature, convertAbiInputsToParams d, false, decoded.2)
      | none =>
        let q := lookupFunctionSignatureWithFallback env decoded.2 sel
        match q.1 with
        | some api =>
          (api.functionName, api.textSignature,
           decodeParametersFromCallData env inv.callData api, false, q.2.1)
        | none => ("unknownFunction_" ++ sel, "unknown()", [], true, q.2.1)
    else processNoSelectorPhase inv cache
  | none => processNoSelectorPhase inv cache

/-- `_processInvocation(invocation, …)` from src/unnamed/part_001
lines 110-175: decode through the cascade, register the target
address, record the interface signature unless the call is raw or
unknown, and append the method call.  A missing target address makes
the JavaScript throw inside `_registerAddress`
(`address.toLowerCase()` on `undefined`), modelled as the error
branch. -/
def processInvocation (env : AbiEnv) (inv : Invocation) (st : WalkState) :
    Except String WalkState :=
  match jsOrStr inv.toAddr inv.address with
  | none => Except.error "TypeError: cannot read properties of undefined"
  | some target =>
    let phase : String × String × List Param × Bool × SigCache :=
      match inv.decodedMethod with
      | some dmm =>
        if dmm.name ≠ "" then
          (dmm.name, (jsOrStr dmm.signature (some (dmm.name ++ "()"))).getD "",
           dmm.callParams.getD [], false, st.cache)
        else processSelectorPhase env inv target st.cache
      | none => processSelectorPhase env inv target st.cache
    match phase with
    | (methodName, signature, params, useRawCall, cache1) =>
      match registerAddress target st.reg with
      | (addressVar, reg1) =>
        let contracts1 :=
          if ¬useRawCall ∧ signature ≠ "" ∧ signature ≠ "unknown()" then
            updateContractInterface target signature st.contracts
          else st.contracts
        Except.ok
          { contracts := contracts1,
            methodCalls := st.methodCalls ++
              [{ toAddr := some target,
                 addressVar := addressVar,
                 methodName := methodName,
                 signature := if useRawCall then none else some signature,
                 params := if useRawCall then none else some params,
                 value := (jsOrStr inv.value (some "0")).getD "0",
                 gasUsed := (jsOrStr inv.gasUsed (some "unknown")).getD "unknown",
                 rawCalldata :=
                   if useRawCall then some ((jsOrStr inv.callData (some "0x")).getD "0x")
                   else none }],
            reg := reg1,
            cache := cache1 }

/-- The inner loop of `_processTraceData`: process, in order, the
main-actor invocations of one node. -/
def processEntryInvs (env : AbiEnv) (mainAddress : String) :
    List Invocation → WalkState → Except String WalkState
  | [], st => Except.ok st
  | inv :: rest, st =>
    if isFromMain inv mainAddress then
      match processInvocation env inv st with
      | Except.error e => Except.error e
      | Except.ok st1 => processEntryInvs env mainAddress rest st1
    else processEntryInvs env mainAddress rest st

/-- `_processTraceData(dataMap, mainAddress, …)` from
src/unnamed/part_001 lines 85-99: every node of the map, in
ordering-key order, contributes its main-actor invocations — there is
no exclusion of callback ranges here. -/
def processTraceData (env : AbiEnv) (dm : DataMap) (mainAddress : String) :
    WalkState → Except String WalkState
  | st =>
    match dm with
    | [] => Except.ok st
    | (_, entry) :: rest =>
      match processEntryInvs env mainAddress (entryInvocations entry) st with
      | Except.error e => Except.error e
      | Except.ok st1 => processTraceData env rest mainAddress st1

/-- One element of the `callbackRanges` array. -/
structure CallbackRange where
  type : String
  startId : Nat
  endId : Nat
  methodName : String
  contractAddress : Option String
  callData : Option String
deriving Repr, DecidableEq

/-- The `flashloanPatterns` table of `_findCallbackRanges`. -/
def flashloanPatterns : List String :=
  ["flashloan", "executeOperation", "receiveFlashLoan", "callFunction"]

/-- `_findCallbackRanges(dataMap, mainAddress)` from
src/unnamed/part_001 lines 229-262: a main-actor invocation whose
method name (decoded name, else selector, else `unknown`) contains a
flash-loan pattern case-insensitively opens a range of fifty nodes
past its key. -/
def findCallbackRanges (dm : DataMap) (mainAddress : String) : List CallbackRange :=
  dm.flatMap (fun e =>
    (entryInvocations e.2).filterMap (fun inv =>
      if isFromMain inv mainAddress then
        let methodName := (jsOrStr (inv.decodedMethod.map (fun d => d.name))
          (jsOrStr inv.selector (some "unknown"))).getD "unknown"
        if flashloanPatterns.any
            (fun p => jsIncludes (strToLower methodName) (strToLower p)) then
          some { type := "flashloan",
                 startId := e.1,
                 endId := e.1 + 50,
                 methodName := methodName,
                 contractAddress := jsOrStr inv.toAddr inv.address,
                 callData := inv.callData }
        else none
      else none))

/-! ### extractCallsInFlashloanRange
(src/lib/traceParser.js lines 98-270) -/

/-- One element of the `callsInCallback` array. -/
structure CallbackCall where
  toAddr : Option String
  addressVar : String
  methodName : String
  signature : String
  params : List Param
  value : String
  gasUsed : String
  callData : Option String
deriving Repr, DecidableEq

/-- The decode cascade of `extractCallsInFlashloanRange` for an
invocation without a usable `decodedMethod`: local ABI (keyed by the
`to` field only), then registry lookup — where a registry hit whose
parameters cannot be decoded (no payload beyond ten characters, or a
decoder exception) falls back to the bare-selector naming
`method_<selector>`, since `apiDecoded` is only set on a successful
parameter decode.  The KiloEx struct pretty-printing and the generic
value re-formatting only restyle decoded values and are not modelled;
the write-back of `invocation.decodedMethod` mutating the trace is
likewise presentation for later passes and is not modelled. -/
def callbackSelectorPhase (env : AbiEnv) (inv : Invocation) (cache : SigCache) :
    String × String × List Param × SigCache :=
  match inv.selector with
  | some sel =>
    if sel ≠ "" then
      let abi := inv.toAddr.bind env.loadContractABI
      let decoded :=
        if abi.isSome ∧ strTruthy inv.callData then
          match decodeFunctionCall env cache (inv.toAddr.getD "") (inv.callData.getD "") abi with
          | Except.ok (r, c) => (r, c)
          | Except.error _ => (none, cache)
        else (none, cache)
      match decoded.1 with
      | some d =>
        (d.name, d.signature,
         (match d.decodedData with
          | some vals =>
            d.inputs.enum.map (fun p =>
              { type := p.2.type,
                name := if p.2.name ≠ "" then p.2.name else "param" ++ toString p.1,
                value := let v := vals.getD p.1 ""
                         if v = "" then "unknown" else v })
          | none => [{ type := "bytes", name := "", value := inv.callData.getD "" }]),
         decoded.2)
      | none =>
        let q := lookupFunctionSignatureWithFallback env decoded.2 sel
        let fallbackName := "method_" ++ String.mk (sel.data.drop 2)
        let fallbackParams : List Param :=
          if strTruthy inv.callData then
            [{ type := "bytes", name := "", value := inv.callData.getD "" }]
          else []
        match q.1 with
        | some api =>
          if strTruthy inv.callData ∧ (inv.callData.getD "").length > 10 then
            match env.abiDecodeParams api.parameters
                ("0x" ++ String.mk ((inv.callData.getD "").data.drop 10)) with
            | Except.ok vals =>
              (api.functionName, api.textSignature,
               api.parameters.enum.map (fun p =>
                 { type := p.2, name := "param" ++ toString p.1,
                   value := let v := vals.getD p.1 ""
                            if v = "" then "unknown" else v }), q.2.1)
            | Except.error _ =>
              (fallbackName, fallbackName ++ "()", fallbackParams, q.2.1)
          else (fallbackName, fallbackName ++ "()", fallbackParams, q.2.1)
        | none => (fallbackName, fallbackName ++ "()", fallbackParams, q.2.1)
    else ("unknown", "unknown()", [], cache)
  | none => ("unknown", "unknown()", [], cache)

/-- Decode one in-range main-actor invocation, register its target
(`invocation.to` — the JavaScript throws on a missing `to` here) and
record the signature unconditionally, yielding the callback-call
record. -/
def extractCallStep (env : AbiEnv) (inv : Invocation) (st : WalkState) :
    Except String (CallbackCall × WalkState) :=
  let phase : String × String × List Param × SigCache :=
    match inv.decodedMethod with
    | some dmm =>
      if dmm.name ≠ "" then
        (dmm.name, (jsOrStr dmm.signature (some (dmm.name ++ "()"))).getD "",
         dmm.callParams.getD [], st.cache)
      else callbackSelectorPhase env inv st.cache
    | none => callbackSelectorPhase env inv st.cache
  match phase with
  | (methodName, signature, params, cache1) =>
    match inv.toAddr with
    | none => Except.error "TypeError: cannot read properties of undefined"
    | some t =>
      match registerAddress t st.reg with
      | (addressVar, reg1) =>
        Except.ok
          ({ toAddr := inv.toAddr,
             addressVar := addressVar,
             methodName := methodName,
             signature := signature,
             params := params,
             value := (jsOrStr inv.value (some "0")).getD "0",
             gasUsed := (jsOrStr inv.gasUsed (some "unknown")).getD "unknown",
             callData := inv.callData },
           { st with contracts := updateContractInterface t signature st.contracts,
                     reg := reg1,
                     cache := cache1 })

/-- The inner loop over one node's invocations. -/
def extractCallsGoInvs (env : AbiEnv) (mainAddress : String) :
    List Invocation → List CallbackCall × WalkState →
    Except String (List CallbackCall × WalkState)
  | [], acc => Except.ok acc
  | inv :: rest, acc =>
    if isFromMain inv mainAddress then
      match extractCallStep env inv acc.2 with
      | Except.error e => Except.error e
      | Except.ok (c, st1) => extractCallsGoInvs env mainAddress rest (acc.1 ++ [c], st1)
    else extractCallsGoInvs env mainAddress rest acc

/-- The outer loop over the identifiers strictly between `startId` and
`endId`. -/
def extractCallsGoIds (env : AbiEnv) (dm : DataMap) (mainAddress : String) :
    List Nat → List CallbackCall × WalkState → Except String (List CallbackCall × WalkState)
  | [], acc => Except.ok acc
  | id :: rest, acc =>
    match dm.lookup id with
    | none => extractCallsGoIds env dm mainAddress rest acc
    | some entry =>
      match extractCallsGoInvs env mainAddress (entryInvocations entry) acc with
      | Except.error e => Except.error e
      | Except.ok acc1 => extractCallsGoIds env dm mainAddress rest acc1

/-- `extractCallsInFlashloanRange(dataMap, startId, endId, …)` from
src/lib/traceParser.js lines 98-270: collect, in ordering-key order,
the decoded main-actor calls of the nodes strictly inside the
range. -/
def extractCallsInFlashloanRange (env : AbiEnv) (dm : DataMap) (startId endId : Nat)
    (mainAddress : String) (st : WalkState) :
    Except String (List CallbackCall × WalkState) :=
  extractCallsGoIds env dm mainAddress (List.range' (startId + 1) (endId - (startId + 1))) ([], st)

/-! ### extractCallbackData (src/lib/traceParser.js lines 280-310) -/

/-- The record `extractCallbackData` returns. -/
structure CallbackData where
  type : String
  calls : List Invocation
  startId : Nat
  endId : Nat
deriving Repr, DecidableEq

/-- The scan loop of `extractCallbackData`: nodes lacking the plural
`invocations` field are skipped by the `!entry.invocations` guard
before the singular form is ever consulted; collection stops once
more than twenty calls are gathered. -/
def extractCallbackDataGo (dm : DataMap) (mainAddress : String) :
    List Nat → List Invocation → List Invocation
  | [], acc => acc
  | id :: rest, acc =>
    match dm.lookup id with
    | none => extractCallbackDataGo dm mainAddress rest acc
    | some entry =>
      if entry.invocations.isNone then extractCallbackDataGo dm mainAddress rest acc
      else
        let invocations := entryInvocations entry
        let acc1 := acc ++ invocations.filter (fun inv => isFromMain inv mainAddress)
        if acc1.length > 20 then acc1
        else extractCallbackDataGo dm mainAddress rest acc1

/-- `extractCallbackData(callData, dataMap, callId, mainAddress)` from
src/lib/traceParser.js lines 280-310: scan the hundred nodes after
`callId` for main-actor invocations; `null` when none were found. -/
def extractCallbackData (callData : Option String) (dm : DataMap) (callId : Nat)
    (mainAddress : String) : Option CallbackData :=
  let callbackCalls := extractCallbackDataGo dm mainAddress (List.range' (callId + 1) 100) []
  if callbackCalls.isEmpty then none
  else some { type := "flashloan_callback",
              calls := callbackCalls,
              startId := callId + 1,
              endId := callId + min 100 (callbackCalls.length + 10) }

/-! ### Concrete trace scenarios -/

/-- A decoded method with no parameters. -/
def mkDM (n : String) : DecodedMethod :=
  { name := n, signature := some (n ++ "()"), callParams := some [] }

/-- A plain main-actor invocation with a pre-populated decoded
method. -/
def mkInv (f t n : String) : Invocation :=
  { fromAddr := some f, fromAddress := none, toAddr := some t, address := none,
    selector := none, callData := none, value := none, gasUsed := none,
    decodedMethod := some (mkDM n) }

def mainActor : String := "0x1111111111111111111111111111111111111111"

def providerAddr : String := "0x2222222222222222222222222222222222222222"

def contractA : String := "0x3333333333333333333333333333333333333333"

def contractB : String := "0x4444444444444444444444444444444444444444"

/-- The flash-loan bracket trace of claim C2: node 1 is the main
actor's `flashLoan` call, nodes 2 and 3 are its calls into other
contracts. -/
def flashloanTrace : DataMap :=
  [(1, { invocations := some [mkInv mainActor providerAddr "flashLoan"], invocation := none }),
   (2, { invocations := some [mkInv mainActor contractA "doSomething"], invocation := none }),
   (3, { invocations := some [mkInv mainActor contractB "doOther"], invocation := none })]

/-- The walker state at the beginning of a run. -/
def emptyWalkState : WalkState :=
  { contracts := [], methodCalls := [], reg := ⟨[], []⟩, cache := [] }

/-- The invocation of the singular/plural scenario of claim C9. -/
def invSingular : Invocation := mkInv mainActor contractA "doSomething"

/-- A one-node map carrying the invocation in the plural field. -/
def pluralMap : DataMap :=
  [(11, { invocations := some [invSingular], invocation := none })]

/-- The same node carrying the invocation in the singular field. -/
def singularMap : DataMap :=
  [(11, { invocations := none, invocation := some invSingular })]

/-! ### _generateMainTestFunction and _generateSingleCall
(src/unnamed/part_001 lines 441-523)

The generator groups the method calls by target address into a map
(insertion ordered), then walks the groups emitting one call snippet
per method call through `_generateSingleCall`.  Each emitted snippet
is modelled by its call expression; the surrounding boilerplate text
and the textual formatting of parameters are presentation-only. -/

/-- JavaScript `s.toUpperCase()`. -/
def strToUpper (s : String) : String := String.mk (s.data.map jsToUpperChar)

/-- The three call-expression forms `_generateSingleCall` can emit:
a raw low-level call with verbatim payload hex, a value-bearing
low-level call through `abi.encodeWithSignature`, or a typed call
through the synthesized interface. -/
inductive CallExpr where
  | raw (addressVar : String) (value : String) (hexData : String)
  | valueCall (addressVar : String) (value : String) (signature : String) (params : List Param)
  | typed (interfaceName : String) (addressVar : String) (methodName : String)
      (params : List Param)
deriving Repr, DecidableEq

/-- `_generateSingleCall(call, …)`: raw payload replay when the
signature is unknown, else a value-bearing low-level call when a
non-zero native value is attached, else a typed interface call; the
branch conditions follow the source's truthiness tests, and the
final implicit case (no signature, no raw calldata, zero value)
emits nothing. -/
def generateSingleCall (call : MethodCall) (contracts : List (String × List String)) :
    Option CallExpr :=
  if ¬(strTruthy call.signature) ∧ call.rawCalldata ≠ none then
    let hexData := call.rawCalldata.getD "0x"
    let hexData1 :=
      if hexData = "0x" ∧ jsStartsWith call.methodName "unknownFunction_0x" then
        String.mk (call.methodName.data.drop 16)
      else hexData
    let dataToUse :=
      if jsStartsWith hexData1 "0x" then String.mk (hexData1.data.drop 2) else hexData1
    some (CallExpr.raw (strToUpper call.addressVar) call.value dataToUse)
  else if call.value ≠ "" ∧ call.value ≠ "0" then
    some (CallExpr.valueCall (strToUpper call.addressVar) call.value
      (call.signature.getD "null") (call.params.getD []))
  else if strTruthy call.signature then
    let contractSignatures :=
      match call.toAddr with
      | some t => (contracts.lookup t).getD [call.signature.getD ""]
      | none => [call.signature.getD ""]
    let interfaceName := generateInterfaceName (call.toAddr.getD "") contractSignatures
    some (CallExpr.typed interfaceName (strToUpper call.addressVar) call.methodName
      (call.params.getD []))
  else none

/-- Insertion into the `callsByAddress` map: append to the existing
group of the call's target, else open a new group at the end. -/
def groupInsert (groups : List (Option String × List MethodCall)) (call : MethodCall) :
    List (Option String × List MethodCall) :=
  match groups with
  | [] => [(call.toAddr, [call])]
  | (k, cs) :: rest =>
    if k = call.toAddr then (k, cs ++ [call]) :: rest
    else (k, cs) :: groupInsert rest call

/-- The `callsByAddress` map of `_generateMainTestFunction`, built in
method-call order. -/
def callsByAddress (calls : List MethodCall) : List (Option String × List MethodCall) :=
  calls.foldl groupInsert []

/-- The order in which `_generateMainTestFunction` visits the method
calls: group by group, each group in insertion order. -/
def mainTestCallOrder (calls : List MethodCall) : List MethodCall :=
  (callsByAddress calls).flatMap (fun g => g.2)

/-- The sequence of call expressions the main replay routine emits. -/
def generateMainTestCalls (calls : List MethodCall)
    (contracts : List (String × List String)) : List CallExpr :=
  (mainTestCallOrder calls).filterMap (fun c => generateSingleCall c contracts)

/-- The well-formedness of a `callsByAddress`-shaped group list:
group keys are pairwise distinct and every call sits in the group of
its own target. -/
def GroupInv (groups : List (Option String × List MethodCall)) : Prop :=
  (groups.map Prod.fst).Nodup ∧ ∀ g ∈ groups, ∀ x ∈ g.2, x.toAddr = g.1

/-- The three typed calls of the order counterexample: two targets,
with the first target hit again after the second. -/
def cwF : MethodCall :=
  { toAddr := some contractA, addressVar := "addr1", methodName := "f",
    signature := some "f()", params := some [], value := "0", gasUsed := "unknown",
    rawCalldata := none }

def cwG : MethodCall :=
  { toAddr := some contractB, addressVar := "addr2", methodName := "g",
    signature := some "g()", params := some [], value := "0", gasUsed := "unknown",
    rawCalldata := none }

def cwH : MethodCall :=
  { toAddr := some contractA, addressVar := "addr1", methodName := "h",
    signature := some "h()", params := some [], value := "0", gasUsed := "unknown",
    rawCalldata := none }

/-! ### Character-case lemmas used by the checksum proofs -/

theorem toNat_ofNat_small (n : Nat) (h : n < 55296) : (Char.ofNat n).toNat = n := by
  have hv : n.isValidChar := Or.inl h
  simp only [Char.ofNat, hv, dite_true, Char.toNat, Char.ofNatAux]
  rfl

theorem char_eq_of_toNat_eq (a b : Char) (h : a.toNat = b.toNat) : a = b :=
  Char.eq_of_val_eq (UInt32.ext h)

theorem jsToLowerChar_spec (c : Char) :
    (65 ≤ c.toNat ∧ c.toNat ≤ 90 ∧ (jsToLowerChar c).toNat = c.toNat + 32)
    ∨ (¬(65 ≤ c.toNat ∧ c.toNat ≤ 90) ∧ jsToLowerChar c = c) := by
  by_cases h : 65 ≤ c.toNat ∧ c.toNat ≤ 90
  · exact Or.inl ⟨h.1, h.2, by
      simp only [jsToLowerChar, h, if_true]
      exact toNat_ofNat_small _ (by omega)⟩
  · exact Or.inr ⟨h, by simp only [jsToLowerChar, h, if_false]⟩

theorem jsToUpperChar_spec (c : Char) :
    (97 ≤ c.toNat ∧ c.toNat ≤ 122 ∧ (jsToUpperChar c).toNat = c.toNat - 32)
    ∨ (¬(97 ≤ c.toNat ∧ c.toNat ≤ 122) ∧ jsToUpperChar c = c) := by
  by_cases h : 97 ≤ c.toNat ∧ c.toNat ≤ 122
  · exact Or.inl ⟨h.1, h.2, by
      simp only [jsToUpperChar, h, if_true]
      exact toNat_ofNat_small _ (by omega)⟩
  · exact Or.inr ⟨h, by simp only [jsToUpperChar, h, if_false]⟩

theorem jsToLowerChar_idem (c : Char) : jsToLowerChar (jsToLowerChar c) = jsToLowerChar c := by
  rcases jsToLowerChar_spec c with ⟨h1, h2, h3⟩ | ⟨h, h2⟩
  · rcases jsToLowerChar_spec (jsToLowerChar c) with ⟨g1, g2, _⟩ | ⟨_, g2⟩
    · omega
    · exact g2
  · rw [h2, h2]

theorem jsLower_upper_lower (c : Char) (h : jsToLowerChar c = c) :
    jsToLowerChar (jsToUpperChar c) = c := by
  have hnot : ¬(65 ≤ c.toNat ∧ c.toNat ≤ 90) := by
    rcases jsToLowerChar_spec c with ⟨h1, h2, h3⟩ | ⟨hn, _⟩
    · rw [h] at h3; omega
    · exact hn
  rcases jsToUpperChar_spec c with ⟨u1, u2, u3⟩ | ⟨_, u3⟩
  · rcases jsToLowerChar_spec (jsToUpperChar c) with ⟨l1, l2, l3⟩ | ⟨ln, _⟩
    · exact char_eq_of_toNat_eq _ _ (by omega)
    · exact absurd ⟨by omega, by omega⟩ ln
  · rw [u3, h]

theorem checksumMask_length (l h : List Char) : (checksumMask l h).length = l.length := by
  induction l generalizing h with
  | nil => rfl
  | cons c cs ih => simp [checksumMask, ih]

theorem map_lower_checksumMask (l h : List Char) (hl : ∀ c ∈ l, jsToLowerChar c = c) :
    (checksumMask l h).map jsToLowerChar = l := by
  induction l generalizing h with
  | nil => rfl
  | cons c cs ih =>
    have hc : jsToLowerChar c = c := hl c (List.mem_cons_self c cs)
    have hcs : ∀ x ∈ cs, jsToLowerChar x = x := fun x hx => hl x (List.mem_cons_of_mem c hx)
    simp only [checksumMask, List.map_cons]
    rw [ih h.tail hcs]
    by_cases hm : 8 ≤ hexVal (h.headD '0')
    · rw [if_pos hm, jsLower_upper_lower c hc]
    · rw [if_neg hm, hc]

theorem toChecksumAddress_of_guard_fail (s : String)
    (h : (!(jsStartsWith s "0x") || s.length != 42) = true) : toChecksumAddress s = s := by
  simp only [toChecksumAddress, h, if_true]

theorem toChecksumAddress_of_guard_ok (s : String)
    (h : (!(jsStartsWith s "0x") || s.length != 42) = false) :
    toChecksumAddress s =
      String.mk ('0' :: 'x' ::
        checksumMask ((strToLower s).data.drop 2)
          (keccak256Hex (((strToLower s).data.drop 2).map Char.toNat))) := by
  simp only [toChecksumAddress, h, Bool.false_eq_true, if_false]

/-- Claim C7 (amended): `toChecksumAddress` is idempotent on every
input string (in particular on valid 20-byte hex addresses); the claim
that the checksummed form of an all-lower-case letter-containing
address always differs from its input is dropped, being refuted at
`0xa000000000000000000000000000000000000000`. -/
theorem toChecksumAddress_idempotent (s : String) :
    toChecksumAddress (toChecksumAddress s) = toChecksumAddress s := by
  by_cases hg : (!(jsStartsWith s "0x") || s.length != 42) = true
  · rw [toChecksumAddress_of_guard_fail s hg, toChecksumAddress_of_guard_fail s hg]
  · have hg2 : (!(jsStartsWith s "0x") || s.length != 42) = false :=
      Bool.not_eq_true _ ▸ Bool.of_not_eq_true hg
    have hlen : s.length = 42 := by
      have := (Bool.or_eq_false_iff.mp hg2).2
      simpa using this
    rw [toChecksumAddress_of_guard_ok s hg2]
    set A : List Char := (strToLower s).data.drop 2 with hA
    set H : List Char := keccak256Hex (A.map Char.toNat) with hH
    have hAfix : ∀ c ∈ A, jsToLowerChar c = c := by
      intro c hc
      have : A = (s.data.drop 2).map jsToLowerChar := by
        rw [hA]
        simp [strToLower, List.map_drop]
      rw [this] at hc
      rcases List.mem_map.mp hc with ⟨d, _, hd⟩
      rw [← hd]
      exact jsToLowerChar_idem d
    have hAlen : A.length = 40 := by
      have : (strToLower s).data.length = 42 := by
        simpa [strToLower] using hlen
      rw [hA]
      simp [this]
    have hOg : (!(jsStartsWith (String.mk ('0' :: 'x' :: checksumMask A H)) "0x")
        || (String.mk ('0' :: 'x' :: checksumMask A H)).length != 42) = false := by
      have h1 : jsStartsWith (String.mk ('0' :: 'x' :: checksumMask A H)) "0x" = true := by
        simp [jsStartsWith, startsWithList]
      have h2 : (String.mk ('0' :: 'x' :: checksumMask A H)).length = 42 := by
        show ('0' :: 'x' :: checksumMask A H).length = 42
        simp [checksumMask_length, hAlen]
      simp [h1, h2]
    rw [toChecksumAddress_of_guard_ok _ hOg]
    have hA2 : (strToLower (String.mk ('0' :: 'x' :: checksumMask A H))).data.drop 2 = A := by
      show (('0' :: 'x' :: checksumMask A H).map jsToLowerChar).drop 2 = A
      have h0 : jsToLowerChar '0' = '0' := by decide
      have hx : jsToLowerChar 'x' = 'x' := by decide
      simp only [List.map_cons, h0, hx, List.drop_succ_cons, List.drop_zero]
      exact map_lower_checksumMask A H hAfix
    rw [hA2]

set_option maxRecDepth 100000 in
/-- Claim C7, counterexample to the stated difference property: the
address `0xa000000000000000000000000000000000000000` is a valid
20-byte hex address, entirely lower case, and contains the hex letter
`a`, yet its checksummed rendering equals the input — every letter
position of the keccak digest holds a nibble below 8. -/
theorem toChecksumAddress_differs_counterexample :
    toChecksumAddress "0xa000000000000000000000000000000000000000"
        = "0xa000000000000000000000000000000000000000"
    ∧ ("0xa000000000000000000000000000000000000000".data.drop 2).all
        (fun c => c ∈ "0123456789abcdef".data)
    ∧ 'a' ∈ "0xa000000000000000000000000000000000000000".data.drop 2
    ∧ "0xa000000000000000000000000000000000000000".length = 42
    ∧ jsStartsWith "0xa000000000000000000000000000000000000000" "0x" = true := by
  refine ⟨by decide, by decide, by decide, by decide, by decide⟩

/-- Claim C1: evaluation of the classifier over the claimed vocabulary.
The code lower-cases the method name but compares it against
mixed-case literals, so the claimed table does not hold: only the
final row (`totallyUnknownMethod`) matches the claim, while
`executeOperation`, `callFunction` and `uniswapV3SwapCallback` fall
through to `unknown_callback`, `receiveFlashLoan` and
`onMorphoFlashLoan` are captured by the `flashloan` substring row as
`aave_flashloan`, and `uniswapV3FlashCallback` lands in the generic
row.  This contradicts the classification the repository's own unit
test (tests/unit/traceParser.full.test.js lines 46-54) asserts. -/
theorem detectCallbackType_vocabulary_evaluation :
    detectCallbackType "executeOperation" "" "" = "unknown_callback"
    ∧ detectCallbackType "receiveFlashLoan" "" "" = "aave_flashloan"
    ∧ detectCallbackType "callFunction" "" "" = "unknown_callback"
    ∧ detectCallbackType "onMorphoFlashLoan" "" "" = "aave_flashloan"
    ∧ detectCallbackType "uniswapV3SwapCallback" "" "" = "unknown_callback"
    ∧ detectCallbackType "uniswapV3FlashCallback" "" "" = "generic_flashloan"
    ∧ detectCallbackType "totallyUnknownMethod" "" "" = "unknown_callback" := by
  exact ⟨by decide, by decide, by decide, by decide, by decide, by decide, by decide⟩

/-- Claim C6: address registration is idempotent.  After registering
`a`, registering any address `b` equal to `a` up to letter case
returns the very name assigned to `a` and leaves the whole state —
including the counter — unchanged; and when `a` was fresh, the name
assigned is `addr<n+1>` where `n` is the stored counter, so names are
handed out in first-seen order. -/
theorem registerAddress_idempotent (st : RegState) (a b : String)
    (hcase : strToLower b = strToLower a) :
    registerAddress b (registerAddress a st).2 = registerAddress a st
    ∧ (st.registry.lookup (strToLower a) = none →
        (registerAddress a st).1 = "addr" ++ toString ((st.counter.lookup "total").getD 0 + 1)) := by
  constructor
  · cases hl : st.registry.lookup (strToLower a) with
    | some v =>
      have h1 : registerAddress a st = (v, st) := by
        simp [registerAddress, hl]
      rw [h1]
      simp [registerAddress, hcase, hl]
    | none =>
      have h1 : registerAddress a st =
          ("addr" ++ toString ((st.counter.lookup "total").getD 0 + 1),
            { registry := (strToLower a,
                "addr" ++ toString ((st.counter.lookup "total").getD 0 + 1)) :: st.registry,
              counter := ("total", (st.counter.lookup "total").getD 0 + 1) :: st.counter }) := by
        simp [registerAddress, hl]
      rw [h1]
      simp [registerAddress, hcase, List.lookup]
  · intro hl
    simp [registerAddress, hl]

/-- Claim C6, witness: registering the same address twice — the second
time in upper case — returns `addr1` both times without advancing the
counter, on the initially empty state. -/
theorem registerAddress_idempotent_witness :
    registerAddress "0xAAAA567890123456789012345678901234567890"
        (registerAddress "0xaaaa567890123456789012345678901234567890" ⟨[], []⟩).2
      = registerAddress "0xaaaa567890123456789012345678901234567890" ⟨[], []⟩
    ∧ (registerAddress "0xaaaa567890123456789012345678901234567890" ⟨[], []⟩).1 = "addr1" := by
  constructor
  · exact (registerAddress_idempotent ⟨[], []⟩
      "0xaaaa567890123456789012345678901234567890"
      "0xAAAA567890123456789012345678901234567890" (by decide)).1
  · exact (registerAddress_idempotent ⟨[], []⟩
      "0xaaaa567890123456789012345678901234567890"
      "0xAAAA567890123456789012345678901234567890" (by decide)).2 (by decide)

/-- Claim C5: once a lookup for a selector has completed — with a hit
or with a recorded miss — repeating it against the resulting cache
returns the same result, leaves the cache untouched, and queries no
external registry at all. -/
theorem lookupFunctionSignature_cached_second_call (env : AbiEnv) (cache : SigCache)
    (s : String) (r : Option ApiResult) (c1 : SigCache) (log : List String)
    (h : lookupFunctionSignatureWithFallback env cache s = (r, c1, log)) :
    lookupFunctionSignatureWithFallback env c1 s = (r, c1, []) := by
  cases hl : cache.lookup s with
  | some v =>
    have hv : lookupFunctionSignatureWithFallback env cache s = (v, cache, []) := by
      simp [lookupFunctionSignatureWithFallback, hl]
    rw [hv] at h
    have h1 : v = r := congrArg Prod.fst h
    have h2 : cache = c1 := congrArg (fun p => p.2.1) h
    subst h1
    subst h2
    exact hv
  | none =>
    have hv : lookupFunctionSignatureWithFallback env cache s =
        ((queryRegistries env s).1, (s, (queryRegistries env s).1) :: cache,
          (queryRegistries env s).2) := by
      simp [lookupFunctionSignatureWithFallback, hl]
    rw [hv] at h
    have h1 : (queryRegistries env s).1 = r := congrArg Prod.fst h
    have h2 : (s, (queryRegistries env s).1) :: cache = c1 := congrArg (fun p => p.2.1) h
    rw [← h2, ← h1]
    simp [lookupFunctionSignatureWithFallback, List.lookup]

/-- Claim C5, witness: after one completed lookup of `0xa9059cbb`
against the empty cache, the second lookup returns the cached hit,
the unchanged cache, and an empty query log. -/
theorem lookupFunctionSignature_cached_second_call_witness :
    lookupFunctionSignatureWithFallback envTransfer
        [("0xa9059cbb",
          some { functionName := "transfer",
                 textSignature := "transfer(address,uint256)",
                 parameters := ["address", "uint256"] })] "0xa9059cbb"
      = (some { functionName := "transfer",
                textSignature := "transfer(address,uint256)",
                parameters := ["address", "uint256"] },
         [("0xa9059cbb",
           some { functionName := "transfer",
                  textSignature := "transfer(address,uint256)",
                  parameters := ["address", "uint256"] })], []) :=
  lookupFunctionSignature_cached_second_call envTransfer [] "0xa9059cbb"
    (some { functionName := "transfer",
            textSignature := "transfer(address,uint256)",
            parameters := ["address", "uint256"] })
    [("0xa9059cbb",
      some { functionName := "transfer",
             textSignature := "transfer(address,uint256)",
             parameters := ["address", "uint256"] })]
    ["4byte"] rfl

theorem tryLocalAbi_never_throws (env : AbiEnv) (selector callData : String)
    (items : List AbiItem) : ∃ v, tryLocalAbi env selector callData items = Except.ok v := by
  induction items with
  | nil => exact ⟨none, rfl⟩
  | cons func rest ih =>
    simp only [tryLocalAbi]
    cases hsel : env.ifaceSelector func with
    | error e => simpa [jsCatch, hsel] using ih
    | ok funcSelector =>
      by_cases heq : funcSelector = selector
      · cases hdec : env.ifaceDecode func callData with
        | error e => simpa [jsCatch, hsel, heq, hdec] using ih
        | ok decoded =>
          simp [jsCatch, hsel, heq, hdec]
      · simpa [jsCatch, hsel, heq] using ih

/-- Claim C3: `decodeFunctionCall` never raises — for every
environment behaviour (including registries and ethers capabilities
that throw), every cache, target address, payload and optional local
ABI, it returns a value: either a decoded call or `null`, with the
threaded cache.  Every failure path inside degrades instead of
propagating an exception. -/
theorem decodeFunctionCall_never_throws (env : AbiEnv) (cache : SigCache)
    (address callData : String) (abi : Option (List AbiItem)) :
    ∃ r, decodeFunctionCall env cache address callData abi = Except.ok r := by
  have hstep : ∀ sel : String, ∃ r, registryDecodeStep env cache sel = Except.ok r := by
    intro sel
    unfold registryDecodeStep
    rcases hq : lookupFunctionSignatureWithFallback env cache sel with ⟨r1, c1, l1⟩
    cases r1 with
    | some a => exact ⟨_, rfl⟩
    | none => exact ⟨_, rfl⟩
  by_cases hlen : callData.length < 10
  · exact ⟨(none, cache), by simp [decodeFunctionCall, hlen]⟩
  · cases abi with
    | none =>
      simp only [decodeFunctionCall, hlen, if_false]
      exact hstep (strSliceTo callData 10)
    | some items =>
      obtain ⟨v, hv⟩ := tryLocalAbi_never_throws env (strSliceTo callData 10) callData
        (items.filter (fun i => i.type = "function"))
      simp only [decodeFunctionCall, hlen, if_false, hv]
      cases v with
      | some d => exact ⟨_, rfl⟩
      | none => exact hstep (strSliceTo callData 10)

/-- Claim C4, counterexample: `0xa9059cbb` is ten characters — a bare
4-byte selector with an empty payload, hence fewer than the claimed
five bytes — yet `decodeFunctionCall` does not return `null`
immediately: it consults the signature registry (the returned cache
carries the new entry) and yields a decoded call.  The source guard is
`callData.length < 10`, which admits every full selector. -/
theorem decodeFunctionCall_short_payload_counterexample :
    ("0xa9059cbb".length - 2) / 2 = 4
    ∧ decodeFunctionCall envTransfer []
        "0x1111111111111111111111111111111111111111" "0xa9059cbb" none
      = Except.ok (some
          { name := "transfer",
            signature := "transfer(address,uint256)",
            inputs := [{ name := "param0", type := "address" },
                       { name := "param1", type := "uint256" }],
            decodedData := none,
            selector := some "0xa9059cbb" },
          [("0xa9059cbb",
            some { functionName := "transfer",
                   textSignature := "transfer(address,uint256)",
                   parameters := ["address", "uint256"] })]) := by
  exact ⟨by decide, rfl⟩

/-- Claim C4 (amended): decoding is attempted exactly when the raw
call-data string has at least ten characters — the `0x` prefix plus a
full 4-byte selector, possibly with an empty payload — rather than the
claimed five bytes.  For every shorter string, `decodeFunctionCall`
returns `null` at once with the cache unchanged, uniformly in the
environment, so neither the local ABI nor any signature registry is
consulted. -/
theorem decodeFunctionCall_short_returns_null (env : AbiEnv) (cache : SigCache)
    (address callData : String) (abi : Option (List AbiItem))
    (h : callData.length < 10) :
    decodeFunctionCall env cache address callData abi = Except.ok (none, cache) := by
  simp [decodeFunctionCall, h]

/-- Claim C4, witness: a seven-character payload (two and a half
bytes) yields `null` with an untouched cache even though the
environment could answer. -/
theorem decodeFunctionCall_short_returns_null_witness :
    decodeFunctionCall envTransfer []
        "0x1111111111111111111111111111111111111111" "0xa9059" none
      = Except.ok (none, []) :=
  decodeFunctionCall_short_returns_null envTransfer []
    "0x1111111111111111111111111111111111111111" "0xa9059" none (by decide)

theorem generateInterfacesGo_lookup (processed : List String)
    (cs : List (String × List String)) (name : String) :
    (generateInterfacesGo processed cs).lookup name =
      if name ∈ processed then none
      else ((cs.find? (fun c => generateInterfaceName c.1 c.2 = name)).map Prod.snd) := by
  induction cs generalizing processed with
  | nil => by_cases h : name ∈ processed <;> simp [generateInterfacesGo, h]
  | cons c rest ih =>
    obtain ⟨a, s⟩ := c
    by_cases heq : generateInterfaceName a s = name
    · subst heq
      by_cases hn : generateInterfaceName a s ∈ processed
      · have hrec := ih processed
        simp only [hn, if_true] at hrec
        simp [generateInterfacesGo, hn, hrec]
      · have hfind : List.find?
            (fun c => decide (generateInterfaceName c.1 c.2 = generateInterfaceName a s))
            ((a, s) :: rest) = some (a, s) :=
          List.find?_cons_of_pos _ (by simp)
        simp [generateInterfacesGo, hn, List.lookup, hfind]
    · have hfind : List.find? (fun c => decide (generateInterfaceName c.1 c.2 = name))
          ((a, s) :: rest)
          = List.find? (fun c => decide (generateInterfaceName c.1 c.2 = name)) rest :=
        List.find?_cons_of_neg _ (by simp [heq])
      have hbeq : (name == generateInterfaceName a s) = false := by
        rw [beq_eq_false_iff_ne]
        exact fun h => heq h.symm
      by_cases hp : generateInterfaceName a s ∈ processed
      · by_cases hn : name ∈ processed
        · simp [generateInterfacesGo, hp, hn, ih]
        · simp [generateInterfacesGo, hp, hn, ih, hfind]
      · by_cases hn : name ∈ processed
        · have hmem : name ∈ generateInterfaceName a s :: processed :=
            List.mem_cons_of_mem _ hn
          have hrec := ih (generateInterfaceName a s :: processed)
          simp only [hmem, if_true] at hrec
          simp [generateInterfacesGo, hp, List.lookup, hbeq, hn, hrec]
        · have hnmem : ¬(name ∈ generateInterfaceName a s :: processed) := by
            intro hmem
            rcases List.mem_cons.mp hmem with h1 | h2
            · exact heq h1.symm
            · exact hn h2
          have hrec := ih (generateInterfaceName a s :: processed)
          simp only [hnmem, if_false] at hrec
          simp [generateInterfacesGo, hp, List.lookup, hbeq, hn, hrec, hfind]

theorem generateInterfacesGo_names (processed : List String)
    (cs : List (String × List String)) :
    ((generateInterfacesGo processed cs).map Prod.fst).Nodup
    ∧ ∀ n ∈ (generateInterfacesGo processed cs).map Prod.fst, n ∉ processed := by
  induction cs generalizing processed with
  | nil => exact ⟨List.nodup_nil, by simp [generateInterfacesGo]⟩
  | cons c rest ih =>
    obtain ⟨a, s⟩ := c
    by_cases hp : generateInterfaceName a s ∈ processed
    · have := ih processed
      simpa [generateInterfacesGo, hp] using this
    · have ihh := ih (generateInterfaceName a s :: processed)
      constructor
      · simp only [generateInterfacesGo, hp, if_false, List.map_cons]
        refine List.nodup_cons.mpr ⟨?_, ihh.1⟩
        intro hmem
        exact (ihh.2 _ hmem) (List.mem_cons_self _ _)
      · intro n hn
        simp only [generateInterfacesGo, hp, if_false, List.map_cons, List.mem_cons] at hn
        rcases hn with h1 | h2
        · exact h1 ▸ hp
        · intro hmemp
          exact (ihh.2 n h2) (List.mem_cons_of_mem _ hmemp)

theorem generateInterfacesGo_find (processed : List String)
    (cs : List (String × List String)) :
    ∀ p ∈ generateInterfacesGo processed cs,
      ∃ a, cs.find? (fun c => generateInterfaceName c.1 c.2 = p.1) = some (a, p.2) := by
  induction cs generalizing processed with
  | nil => simp [generateInterfacesGo]
  | cons c rest ih =>
    obtain ⟨a, s⟩ := c
    intro p hp2
    by_cases hp : generateInterfaceName a s ∈ processed
    · simp only [generateInterfacesGo, hp, if_true] at hp2
      have hnotin : p.1 ∉ processed :=
        (generateInterfacesGo_names processed rest).2 p.1 (List.mem_map_of_mem Prod.fst hp2)
      have hne : ¬(generateInterfaceName a s = p.1) := fun he => hnotin (he ▸ hp)
      obtain ⟨b, hb⟩ := ih processed p hp2
      exact ⟨b, by rw [List.find?_cons_of_neg _ (by simp [hne])]; exact hb⟩
    · simp only [generateInterfacesGo, hp, if_false, List.mem_cons] at hp2
      rcases hp2 with h1 | h2
      · subst h1
        exact ⟨a, List.find?_cons_of_pos _ (by simp)⟩
      · have hnotin : p.1 ∉ (generateInterfaceName a s :: processed) :=
          (generateInterfacesGo_names (generateInterfaceName a s :: processed) rest).2 p.1
            (List.mem_map_of_mem Prod.fst h2)
        have hne : ¬(generateInterfaceName a s = p.1) :=
          fun he => hnotin (he ▸ List.mem_cons_self _ _)
        obtain ⟨b, hb⟩ := ih (generateInterfaceName a s :: processed) p h2
        exact ⟨b, by rw [List.find?_cons_of_neg _ (by simp [hne])]; exact hb⟩

/-- Claim C10: the rendered interface declarations carry pairwise
distinct interface names; the declaration emitted under a name
carries exactly the signature set of the first address in map
iteration order deriving that name through `generateInterfaceName`
(so a later address deriving the same name contributes nothing, and a
signature unique to such a later address appears in no emitted
declaration); and every emitted declaration is the first-winning
entry for its name. -/
theorem generateInterfaces_one_decl_per_name (contracts : List (String × List String)) :
    ((generateInterfaces contracts).map Prod.fst).Nodup
    ∧ (∀ name : String,
        (generateInterfaces contracts).lookup name
          = (contracts.find? (fun c => generateInterfaceName c.1 c.2 = name)).map Prod.snd)
    ∧ ∀ p ∈ generateInterfaces contracts,
        ∃ a, contracts.find? (fun c => generateInterfaceName c.1 c.2 = p.1) = some (a, p.2) := by
  refine ⟨(generateInterfacesGo_names [] contracts).1, ?_,
    generateInterfacesGo_find [] contracts⟩
  intro name
  have h := generateInterfacesGo_lookup [] contracts name
  simpa using h

/-- Claim C2: on the flash-loan bracket trace the range detector finds
exactly one flash-loan range and the range extractor collects the two
bracketed calls in original order — but `_processTraceData` still
emits all three invocations as top-level method calls: the calls at
nodes 2 and 3 are not excluded from the top-level list (they are
duplicated into the callback), contradicting the claimed top-level
classification. -/
theorem flashloan_bracket_evaluation :
    findCallbackRanges flashloanTrace mainActor
      = [{ type := "flashloan", startId := 1, endId := 51, methodName := "flashLoan",
           contractAddress := some providerAddr, callData := none }]
    ∧ (extractCallsInFlashloanRange envTransfer flashloanTrace 1 51 mainActor
        emptyWalkState).toOption.map
          (fun p => p.1.map (fun c => (c.toAddr, c.methodName)))
      = some [(some contractA, "doSomething"), (some contractB, "doOther")]
    ∧ (processTraceData envTransfer flashloanTrace mainActor emptyWalkState).toOption.map
        (fun st => st.methodCalls.map (fun c => (c.toAddr, c.methodName)))
      = some [(some providerAddr, "flashLoan"),
              (some contractA, "doSomething"),
              (some contractB, "doOther")] := by
  refine ⟨by decide, by decide, by decide⟩

/-- Claim C9: the top-level walker and the flash-loan-range detector
treat a one-element plural `invocations` list and the equivalent
singular `invocation` field identically — but `extractCallbackData`
does not: its `!entry.invocations` guard skips singular-form nodes
before its own normalization line can see them, so the plural form of
the same node yields a callback record while the singular form yields
`null`.  The repository's own unit test
(tests/unit/traceParser.full.test.js, `should handle singular
invocation field`) asserts the singular form must work. -/
theorem singular_plural_equivalence_evaluation :
    (∀ (env : AbiEnv) (mainAddress : String) (st : WalkState) (k : Nat) (inv : Invocation)
        (pre post : DataMap),
      processTraceData env (pre ++ (k, ⟨some [inv], none⟩) :: post) mainAddress st
        = processTraceData env (pre ++ (k, ⟨none, some inv⟩) :: post) mainAddress st)
    ∧ (∀ (mainAddress : String) (k : Nat) (inv : Invocation) (pre post : DataMap),
      findCallbackRanges (pre ++ (k, ⟨some [inv], none⟩) :: post) mainAddress
        = findCallbackRanges (pre ++ (k, ⟨none, some inv⟩) :: post) mainAddress)
    ∧ extractCallbackData (some "0xdata") pluralMap 10 mainActor
      = some { type := "flashloan_callback", calls := [invSingular],
               startId := 11, endId := 21 }
    ∧ extractCallbackData (some "0xdata") singularMap 10 mainActor = none := by
  refine ⟨?_, ?_, by decide, by decide⟩
  · intro env mainAddress st k inv pre post
    induction pre generalizing st with
    | nil => rfl
    | cons p pre ih =>
      have h1 : ∀ (dmtail : DataMap) (st : WalkState),
          processTraceData env (p :: dmtail) mainAddress st
            = match processEntryInvs env mainAddress (entryInvocations p.2) st with
              | Except.error e => Except.error e
              | Except.ok st1 => processTraceData env dmtail mainAddress st1 :=
        fun _ _ => rfl
      rw [List.cons_append, List.cons_append, h1, h1]
      cases processEntryInvs env mainAddress (entryInvocations p.2) st with
      | error e => rfl
      | ok st1 => exact ih st1
  · intro mainAddress k inv pre post
    simp [findCallbackRanges, entryInvocations]

theorem callsByAddress_append (calls : List MethodCall) (c : MethodCall) :
    callsByAddress (calls ++ [c]) = groupInsert (callsByAddress calls) c := by
  simp [callsByAddress, List.foldl_append]

theorem groupInsert_keys (groups : List (Option String × List MethodCall)) (c : MethodCall) :
    (groupInsert groups c).map Prod.fst
      = if c.toAddr ∈ groups.map Prod.fst then groups.map Prod.fst
        else groups.map Prod.fst ++ [c.toAddr] := by
  induction groups with
  | nil => simp [groupInsert]
  | cons g rest ih =>
    obtain ⟨k, cs⟩ := g
    by_cases h : k = c.toAddr
    · simp [groupInsert, h]
    · have hne : ¬(c.toAddr = k) := fun he => h he.symm
      by_cases h2 : c.toAddr ∈ rest.map Prod.fst
      · simp [groupInsert, h, ih, hne, h2]
      · simp [groupInsert, h, ih, hne, h2]

theorem groupInsert_inv (groups : List (Option String × List MethodCall)) (c : MethodCall)
    (h : GroupInv groups) : GroupInv (groupInsert groups c) := by
  induction groups with
  | nil =>
    refine ⟨by simp [groupInsert], ?_⟩
    intro g hg x hx
    simp only [groupInsert, List.mem_singleton] at hg
    subst hg
    simp only [List.mem_singleton] at hx
    subst hx
    rfl
  | cons gr rest ih =>
    obtain ⟨k, cs⟩ := gr
    obtain ⟨hnd, helem⟩ := h
    by_cases hk : k = c.toAddr
    · subst hk
      have hgi : groupInsert ((c.toAddr, cs) :: rest) c = (c.toAddr, cs ++ [c]) :: rest := by
        simp [groupInsert]
      rw [hgi]
      refine ⟨by simpa using hnd, ?_⟩
      intro g hg x hx
      rcases List.mem_cons.mp hg with h1 | h2
      · subst h1
        rcases List.mem_append.mp hx with hx1 | hx2
        · exact helem (c.toAddr, cs) (List.mem_cons_self _ _) x hx1
        · simp only [List.mem_singleton] at hx2
          subst hx2
          rfl
      · exact helem g (List.mem_cons_of_mem _ h2) x hx
    · have hgi : groupInsert ((k, cs) :: rest) c = (k, cs) :: groupInsert rest c := by
        simp [groupInsert, hk]
      rw [hgi]
      have hrest : GroupInv rest :=
        ⟨(List.nodup_cons.mp (by simpa using hnd)).2,
         fun g hg x hx => helem g (List.mem_cons_of_mem _ hg) x hx⟩
      obtain ⟨ih1, ih2⟩ := ih hrest
      have hknotin : k ∉ rest.map Prod.fst := (List.nodup_cons.mp (by simpa using hnd)).1
      constructor
      · simp only [List.map_cons]
        refine List.nodup_cons.mpr ⟨?_, ih1⟩
        rw [groupInsert_keys]
        by_cases h2 : c.toAddr ∈ rest.map Prod.fst
        · simpa [h2] using hknotin
        · simp only [h2, if_false, List.mem_append, List.mem_singleton]
          rintro (hin | hq)
          · exact hknotin hin
          · exact hk hq
      · intro g hg x hx
        rcases List.mem_cons.mp hg with h1 | h2
        · subst h1
          exact helem (k, cs) (List.mem_cons_self _ _) x hx
        · exact ih2 g h2 x hx

theorem callsByAddress_inv (calls : List MethodCall) : GroupInv (callsByAddress calls) := by
  induction calls using List.reverseRecOn with
  | nil => exact ⟨List.nodup_nil, by simp [callsByAddress]⟩
  | append_singleton l c ih =>
    rw [callsByAddress_append]
    exact groupInsert_inv _ _ ih

theorem groupInsert_flat_length (groups : List (Option String × List MethodCall))
    (c : MethodCall) :
    ((groupInsert groups c).flatMap (fun g => g.2)).length
      = (groups.flatMap (fun g => g.2)).length + 1 := by
  induction groups with
  | nil => simp [groupInsert]
  | cons g rest ih =>
    obtain ⟨k, cs⟩ := g
    by_cases h : k = c.toAddr
    · simp [groupInsert, h]
      omega
    · simp [groupInsert, h, ih]
      omega

theorem groupInsert_flat_filter_ne (groups : List (Option String × List MethodCall))
    (c : MethodCall) (a : Option String) (ha : a ≠ c.toAddr) :
    ((groupInsert groups c).flatMap (fun g => g.2)).filter (fun x => x.toAddr == a)
      = (groups.flatMap (fun g => g.2)).filter (fun x => x.toAddr == a) := by
  have hcbeq : (c.toAddr == a) = false := by
    rw [beq_eq_false_iff_ne]
    exact fun he => ha he.symm
  induction groups with
  | nil => simp [groupInsert, hcbeq]
  | cons g rest ih =>
    obtain ⟨k, cs⟩ := g
    by_cases h : k = c.toAddr
    · simp [groupInsert, h, List.filter_append, hcbeq]
    · simp [groupInsert, h, List.filter_append, ih]

theorem groupInsert_flat_filter_eq (groups : List (Option String × List MethodCall))
    (c : MethodCall) (hinv : GroupInv groups) :
    ((groupInsert groups c).flatMap (fun g => g.2)).filter (fun x => x.toAddr == c.toAddr)
      = (groups.flatMap (fun g => g.2)).filter (fun x => x.toAddr == c.toAddr) ++ [c] := by
  induction groups with
  | nil => simp [groupInsert]
  | cons gr rest ih =>
    obtain ⟨k, cs⟩ := gr
    obtain ⟨hnd, helem⟩ := hinv
    have hrest : GroupInv rest :=
      ⟨(List.nodup_cons.mp (by simpa using hnd)).2,
       fun g hg x hx => helem g (List.mem_cons_of_mem _ hg) x hx⟩
    have hknotin : k ∉ rest.map Prod.fst := (List.nodup_cons.mp (by simpa using hnd)).1
    by_cases hk : k = c.toAddr
    · subst hk
      have hrest0 : (rest.flatMap (fun g => g.2)).filter (fun x => x.toAddr == c.toAddr)
          = [] := by
        rw [List.filter_eq_nil_iff]
        intro x hx
        obtain ⟨g, hg, hxg⟩ := List.mem_flatMap.mp hx
        have hxa : x.toAddr = g.1 := helem g (List.mem_cons_of_mem _ hg) x hxg
        have hg1 : g.1 ≠ c.toAddr := by
          intro he
          exact hknotin (he ▸ List.mem_map_of_mem Prod.fst hg)
        simp [hxa, hg1]
      simp [groupInsert, List.filter_append, hrest0]
    · have hcs0 : cs.filter (fun x => x.toAddr == c.toAddr) = [] := by
        rw [List.filter_eq_nil_iff]
        intro x hx
        have hxa : x.toAddr = k := helem (k, cs) (List.mem_cons_self _ _) x hx
        have : ¬(x.toAddr = c.toAddr) := fun he => hk ((hxa.symm.trans he))
        simp [this]
      simp [groupInsert, hk, List.filter_append, hcs0, ih hrest]

theorem mainTestCallOrder_filter (calls : List MethodCall) (a : Option String) :
    (mainTestCallOrder calls).filter (fun x => x.toAddr == a)
      = calls.filter (fun x => x.toAddr == a) := by
  induction calls using List.reverseRecOn with
  | nil => rfl
  | append_singleton l c ih =>
    rw [mainTestCallOrder, callsByAddress_append]
    by_cases ha : a = c.toAddr
    · subst ha
      rw [groupInsert_flat_filter_eq _ _ (callsByAddress_inv l)]
      rw [show (callsByAddress l).flatMap (fun g => g.2) = mainTestCallOrder l from rfl]
      rw [List.filter_append, ih]
      simp
    · rw [groupInsert_flat_filter_ne _ _ _ ha]
      rw [show (callsByAddress l).flatMap (fun g => g.2) = mainTestCallOrder l from rfl]
      rw [List.filter_append, ih]
      have hc : (c.toAddr == a) = false := by
        rw [beq_eq_false_iff_ne]
        exact fun he => ha he.symm
      simp [hc]

theorem mainTestCallOrder_length (calls : List MethodCall) :
    (mainTestCallOrder calls).length = calls.length := by
  induction calls using List.reverseRecOn with
  | nil => rfl
  | append_singleton l c ih =>
    rw [mainTestCallOrder, callsByAddress_append, groupInsert_flat_length]
    rw [show (callsByAddress l).flatMap (fun g => g.2) = mainTestCallOrder l from rfl]
    simp [ih]

theorem mainTestCallOrder_mem (calls : List MethodCall) (x : MethodCall)
    (hx : x ∈ mainTestCallOrder calls) : x ∈ calls := by
  have h1 : x ∈ (mainTestCallOrder calls).filter (fun y => y.toAddr == x.toAddr) :=
    List.mem_filter.mpr ⟨hx, by simp⟩
  rw [mainTestCallOrder_filter] at h1
  exact (List.mem_filter.mp h1).1

theorem generateSingleCall_isSome (call : MethodCall) (contracts : List (String × List String))
    (h : strTruthy call.signature = true ∨ call.rawCalldata ≠ none
        ∨ (call.value ≠ "" ∧ call.value ≠ "0")) :
    (generateSingleCall call contracts).isSome = true := by
  unfold generateSingleCall
  split
  · simp
  · split
    · simp
    · split
      · simp
      · rename_i h1 h2 h3
        exfalso
        rcases h with hs | hraw | hv
        · exact h3 hs
        · exact h1 ⟨fun hc => h3 hc, hraw⟩
        · exact h2 hv

theorem filterMap_length_of_isSome (f : MethodCall → Option CallExpr) (l : List MethodCall)
    (h : ∀ x ∈ l, (f x).isSome = true) : (l.filterMap f).length = l.length := by
  induction l with
  | nil => rfl
  | cons x xs ih =>
    have hx := h x (List.mem_cons_self _ _)
    cases hfx : f x with
    | none => rw [hfx] at hx; simp at hx
    | some b =>
      simp [List.filterMap_cons, hfx, ih (fun y hy => h y (List.mem_cons_of_mem _ hy))]

/-- Claim C8 (amended): the main replay routine emits exactly one
call expression per top-level method call (given that each call
carries a signature, a raw payload, or a non-zero value, as every
call built by `_processInvocation` does), but in address-grouped
order rather than original trace order: the emission sequence visits
the calls grouped by target address — groups in first-occurrence
order — and only within each target address does the original trace
order survive, as the per-address subsequences are preserved
exactly. -/
theorem generateMainTestCalls_grouped (calls : List MethodCall)
    (contracts : List (String × List String))
    (h : ∀ c ∈ calls, strTruthy c.signature = true ∨ c.rawCalldata ≠ none
        ∨ (c.value ≠ "" ∧ c.value ≠ "0")) :
    (generateMainTestCalls calls contracts).length = calls.length
    ∧ ∀ a : Option String,
        (mainTestCallOrder calls).filter (fun x => x.toAddr == a)
          = calls.filter (fun x => x.toAddr == a) := by
  constructor
  · rw [generateMainTestCalls,
      filterMap_length_of_isSome _ _
        (fun x hx => generateSingleCall_isSome x contracts (h x (mainTestCallOrder_mem calls x hx)))]
    exact mainTestCallOrder_length calls
  · exact mainTestCallOrder_filter calls

/-- Claim C8, counterexample: on the top-level calls f→A, g→B, h→A
the routine emits f, h, g — one expression per call, but grouped by
target address, not the calls' original trace order f, g, h. -/
theorem generateMainTestCalls_order_counterexample :
    generateMainTestCalls [cwF, cwG, cwH] []
      = [CallExpr.typed "IFContract" "ADDR1" "f" [],
         CallExpr.typed "IHContract" "ADDR1" "h" [],
         CallExpr.typed "IGContract" "ADDR2" "g" []]
    ∧ generateMainTestCalls [cwF, cwG, cwH] []
      ≠ [cwF, cwG, cwH].filterMap (fun c => generateSingleCall c []) := by
  exact ⟨by decide, by decide⟩

/-- Claim C8, witness: on the counterexample calls the amended claim
holds — three expressions for three calls, and the per-address
subsequence for target A is preserved. -/
theorem generateMainTestCalls_grouped_witness :
    (generateMainTestCalls [cwF, cwG, cwH] []).length = 3
    ∧ (mainTestCallOrder [cwF, cwG, cwH]).filter (fun x => x.toAddr == some contractA)
      = [cwF, cwG, cwH].filter (fun x => x.toAddr == some contractA) := by
  have h := generateMainTestCalls_grouped [cwF, cwG, cwH] [] (by
    intro c hc
    rcases List.mem_cons.mp hc with h1 | hc1
    · left; rw [h1]; decide
    rcases List.mem_cons.mp hc1 with h2 | hc2
    · left; rw [h2]; decide
    rcases List.mem_cons.mp hc2 with h3 | hc3
    · left; rw [h3]; decide
    · simp at hc3)
  exact ⟨by rw [h.1]; rfl, h.2 (some contractA)⟩

/-- Claim C10, witness: on a two-address contracts map whose entries
both derive the name `IToken` with different signature sets, the
emitted declaration is the first entry's signature set. -/
theorem generateInterfaces_one_decl_per_name_witness :
    ∃ a, [("0xA", ["transfer(address,uint256)", "approve(address,uint256)"]),
          ("0xB", ["transfer(address,uint256)", "approve(address,uint256)",
                   "balanceOf(address)"])].find?
        (fun c => generateInterfaceName c.1 c.2 = "IToken")
      = some (a, ["transfer(address,uint256)", "approve(address,uint256)"]) :=
  (generateInterfaces_one_decl_per_name
      [("0xA", ["transfer(address,uint256)", "approve(address,uint256)"]),
       ("0xB", ["transfer(address,uint256)", "approve(address,uint256)",
                "balanceOf(address)"])]).2.2
    ("IToken", ["transfer(address,uint256)", "approve(address,uint256)"]) (by decide)
